import Mathlib

/-!
Verification of the `mruby-cmath-alt` complex math gem (`src/cmath.c`).

The C code computes over IEEE-754 floating-point numbers.  The claims under
study are about control flow, special-value tables, branch-cut selection and
algebraic structure, never about rounding, so floating-point numbers are
modelled in sign-magnitude form: a sign bit plus a magnitude that is NaN,
infinity, or an exact rational.  Signed zeros are `⟨false, fin 0⟩` (+0) and
`⟨true, fin 0⟩` (-0).  Arithmetic follows IEEE-754 special-value semantics
with exact rationals in place of rounded finite values.

The external C math library (`exp`, `sin`, `hypot`, ... from libm) is a
collaborator, not part of this repository's code; it is modelled as a
structure of total functions (`ScalarLib`) that each embedded function takes
as a parameter, with an executable stand-in (`demoLib`) for concrete
instances.
-/

/-- Magnitude part of a modelled floating-point number. -/
inductive Mag where
  | nan : Mag
  | inf : Mag
  | fin : ℚ → Mag
deriving DecidableEq, Repr

/-- Modelled floating-point number: sign bit (true = negative) and magnitude. -/
structure MF where
  sg : Bool
  mg : Mag
deriving DecidableEq, Repr

/-- The C `NAN` macro (quiet NaN, positive sign bit). -/
def nanF : MF := ⟨false, Mag.nan⟩

/-- The C `+INFINITY` constant. -/
def posInfF : MF := ⟨false, Mag.inf⟩

/-- The C `-INFINITY` constant. -/
def negInfF : MF := ⟨true, Mag.inf⟩

/-- Embed a rational literal as a modelled float (exactly; the claims never
depend on rounding of literals). -/
def mkF (q : ℚ) : MF := ⟨decide (q < 0), Mag.fin |q|⟩

/-- Extended real value of a float, for C comparison operators; NaN has none. -/
inductive XV where
  | bot : XV
  | ratv : ℚ → XV
  | top : XV
deriving DecidableEq, Repr

/-- Value of a modelled float as an extended rational (`none` for NaN).
Both zeros map to the rational 0, as IEEE comparisons require. -/
def valF : MF → Option XV
  | ⟨_, Mag.nan⟩ => none
  | ⟨false, Mag.inf⟩ => some XV.top
  | ⟨true, Mag.inf⟩ => some XV.bot
  | ⟨false, Mag.fin m⟩ => some (XV.ratv m)
  | ⟨true, Mag.fin m⟩ => some (XV.ratv (-m))

/-- Strict order on extended rationals. -/
def xvLt : XV → XV → Bool
  | XV.bot, XV.bot => false
  | XV.bot, _ => true
  | XV.ratv _, XV.bot => false
  | XV.ratv a, XV.ratv b => decide (a < b)
  | XV.ratv _, XV.top => true
  | XV.top, _ => false

/-- C `<` on floats: false whenever either side is NaN. -/
def ltF (x y : MF) : Bool :=
  match valF x, valF y with
  | some a, some b => xvLt a b
  | _, _ => false

/-- C `<=` on floats: false whenever either side is NaN. -/
def leF (x y : MF) : Bool :=
  match valF x, valF y with
  | some a, some b => !(xvLt b a)
  | _, _ => false

/-- C `>` on floats. -/
def gtF (x y : MF) : Bool := ltF y x

/-- C `==` on floats: false for NaN, and `+0 == -0`. -/
def eqF (x y : MF) : Bool :=
  match valF x, valF y with
  | some a, some b => decide (a = b)
  | _, _ => false

/-- C `isnan`. -/
def isnanF (x : MF) : Bool :=
  match x.mg with | Mag.nan => true | _ => false

/-- C `isinf`. -/
def isinfF (x : MF) : Bool :=
  match x.mg with | Mag.inf => true | _ => false

/-- C `signbit`. -/
def signbitF (x : MF) : Bool := x.sg

/-- IEEE negation: flips the sign bit. -/
def negF (x : MF) : MF := ⟨!x.sg, x.mg⟩

/-- C `fabs`: clears the sign bit. -/
def absF (x : MF) : MF := ⟨false, x.mg⟩

/-- C `copysign(m, s)`: magnitude of `m` with sign bit of `s`. -/
def copysignF (m s : MF) : MF := ⟨s.sg, m.mg⟩

/-- Signed rational value of a finite sign/magnitude pair. -/
def sval (sg : Bool) (m : ℚ) : ℚ := if sg then -m else m

/-- IEEE addition on the model (exact in the finite case; an exactly zero
finite sum is `-0` only when both addends have negative sign, matching
round-to-nearest). -/
def addF (x y : MF) : MF :=
  match x, y with
  | ⟨_, Mag.nan⟩, _ => nanF
  | _, ⟨_, Mag.nan⟩ => nanF
  | ⟨sx, Mag.inf⟩, ⟨sy, Mag.inf⟩ => if sx = sy then ⟨sx, Mag.inf⟩ else nanF
  | ⟨sx, Mag.inf⟩, ⟨_, Mag.fin _⟩ => ⟨sx, Mag.inf⟩
  | ⟨_, Mag.fin _⟩, ⟨sy, Mag.inf⟩ => ⟨sy, Mag.inf⟩
  | ⟨sx, Mag.fin mx⟩, ⟨sy, Mag.fin my⟩ =>
    let v := sval sx mx + sval sy my
    if v = 0 then ⟨sx && sy, Mag.fin 0⟩ else mkF v

/-- IEEE subtraction: addition of the negation. -/
def subF (x y : MF) : MF := addF x (negF y)

/-- Magnitude of an IEEE product (`inf * 0 = NaN`). -/
def mulMag : Mag → Mag → Mag
  | Mag.nan, _ => Mag.nan
  | _, Mag.nan => Mag.nan
  | Mag.inf, Mag.fin m => if m = 0 then Mag.nan else Mag.inf
  | Mag.fin m, Mag.inf => if m = 0 then Mag.nan else Mag.inf
  | Mag.inf, Mag.inf => Mag.inf
  | Mag.fin a, Mag.fin b => Mag.fin (a * b)

/-- IEEE multiplication: sign is the xor of the signs. -/
def mulF (x y : MF) : MF := ⟨xor x.sg y.sg, mulMag x.mg y.mg⟩

/-- Magnitude of an IEEE quotient (`inf/inf = 0/0 = NaN`, `x/0 = inf`). -/
def divMag : Mag → Mag → Mag
  | Mag.nan, _ => Mag.nan
  | _, Mag.nan => Mag.nan
  | Mag.inf, Mag.inf => Mag.nan
  | Mag.inf, Mag.fin _ => Mag.inf
  | Mag.fin _, Mag.inf => Mag.fin 0
  | Mag.fin a, Mag.fin b =>
    if b = 0 then (if a = 0 then Mag.nan else Mag.inf) else Mag.fin (a / b)

/-- IEEE division: sign is the xor of the signs. -/
def divF (x y : MF) : MF := ⟨xor x.sg y.sg, divMag x.mg y.mg⟩

/-- Complex value: a (real, imaginary) pair, as built by `cmath_build_complex`
and projected by `cmath_creal` / `cmath_cimag`. -/
abbrev CC := MF × MF

/-- Componentwise complex negation (C unary `-` on `_Complex`). -/
def cnegC (c : CC) : CC := (negF c.1, negF c.2)

/-- Complex + complex addition (componentwise, per C99). -/
def cadd (a b : CC) : CC := (addF a.1 b.1, addF a.2 b.2)

/-- Complex + real scalar (C99 mixed arithmetic: only the real part moves). -/
def caddR (c : CC) (r : MF) : CC := (addF c.1 r, c.2)

/-- Complex - real scalar. -/
def csubR (c : CC) (r : MF) : CC := (subF c.1 r, c.2)

/-- Real scalar + complex. -/
def raddC (r : MF) (c : CC) : CC := (addF r c.1, c.2)

/-- Real scalar - complex (C99: `(r - x, -y)`). -/
def rsubC (r : MF) (c : CC) : CC := (subF r c.1, negF c.2)

/-- Real scalar * complex (componentwise). -/
def rmulC (r : MF) (c : CC) : CC := (mulF r c.1, mulF r c.2)

/-- Complex multiplication `(ac - bd, ad + bc)`, the arithmetic core of the
compiler's `__muldc3` (its NaN-recovery postpass is not modelled; no claim
depends on it). -/
def cmul (a b : CC) : CC :=
  (subF (mulF a.1 b.1) (mulF a.2 b.2), addF (mulF a.1 b.2) (mulF a.2 b.1))

/-- The `CXDIVc` helper compiled on the MSVC branch of `cmath.c` (lines
65-88), transcribed verbatim: note that `den` is computed from components of
`a`, exactly as the source writes it. -/
def CXDIVc (a b : CC) : CC :=
  let abr0 := b.1
  let abr := if ltF abr0 (mkF 0) then negF abr0 else abr0
  let abi0 := b.2
  let abi := if ltF abi0 (mkF 0) then negF abi0 else abi0
  if leF abr abi then
    let ratio := divF b.1 b.2
    let den := mulF a.2 (addF (mkF 1) (mulF ratio ratio))
    (divF (addF (mulF a.1 ratio) a.2) den,
     divF (subF (mulF a.2 ratio) a.1) den)
  else
    let ratio := divF b.2 b.1
    let den := mulF a.1 (addF (mkF 1) (mulF ratio ratio))
    (divF (addF a.1 (mulF a.2 ratio)) den,
     divF (subF a.2 (mulF a.1 ratio)) den)

/-- Modelled from the spec: the overflow-avoiding complex division the spec
(section 4.1) and claim C1 describe, with the denominator taken from the
dominant component of `b` (`den = Im(b)*(1+r*r)` resp. `Re(b)*(1+r*r)`). -/
def divideSpec (a b : CC) : CC :=
  let abr0 := b.1
  let abr := if ltF abr0 (mkF 0) then negF abr0 else abr0
  let abi0 := b.2
  let abi := if ltF abi0 (mkF 0) then negF abi0 else abi0
  if leF abr abi then
    let ratio := divF b.1 b.2
    let den := mulF b.2 (addF (mkF 1) (mulF ratio ratio))
    (divF (addF (mulF a.1 ratio) a.2) den,
     divF (subF (mulF a.2 ratio) a.1) den)
  else
    let ratio := divF b.2 b.1
    let den := mulF b.1 (addF (mkF 1) (mulF ratio ratio))
    (divF (addF a.1 (mulF a.2 ratio)) den,
     divF (subF a.2 (mulF a.1 ratio)) den)

/-- Builtin C99 complex / complex division used on the GCC path (the macro
`CXDIVc(x,y) = (x)/(y)`), modelled after libgcc's Smith-style `__divdc3`
(NaN recovery and overflow rescaling omitted; exact rationals need neither). -/
def cdiv (a b : CC) : CC :=
  if ltF (absF b.1) (absF b.2) then
    let ratio := divF b.1 b.2
    let den := addF (mulF b.1 ratio) b.2
    (divF (addF (mulF a.1 ratio) a.2) den,
     divF (subF (mulF a.2 ratio) a.1) den)
  else
    let ratio := divF b.2 b.1
    let den := addF b.1 (mulF b.2 ratio)
    (divF (addF a.1 (mulF a.2 ratio)) den,
     divF (subF a.2 (mulF a.1 ratio)) den)

/-- Complex / real scalar division (`CXDIVf`): componentwise. -/
def CXDIVf (c : CC) (r : MF) : CC := (divF c.1 r, divF c.2 r)

/-- The external real scalar math library (libm): one total function per
primitive the C code calls through `F(...)`.  These are collaborators of the
repository, not part of its code, so they are parameters of the embedding. -/
structure ScalarLib where
  exp : MF → MF
  log : MF → MF
  log2 : MF → MF
  log10 : MF → MF
  sqrt : MF → MF
  sin : MF → MF
  cos : MF → MF
  tan : MF → MF
  asin : MF → MF
  acos : MF → MF
  atan : MF → MF
  sinh : MF → MF
  cosh : MF → MF
  tanh : MF → MF
  asinh : MF → MF
  acosh : MF → MF
  atanh : MF → MF
  hypot : MF → MF → MF
  atan2 : MF → MF → MF

/-- Build-time precision configuration: the numeric cutoff constants that
`cmath.c` selects with `#ifdef MRB_USE_FLOAT32`. -/
structure Config where
  cutoff1 : MF
  cutoff2 : MF
  sqrtCutoff : MF

/-- Double-precision build: `cutoff1 = 373.0`,
`cutoff2 = 0x1.3001004048044P+4` (exactly `0x13001004048044 / 2^48`),
`sqrt` rescale cutoff `1e308` (modelled as the exact decimal). -/
def doubleCfg : Config :=
  ⟨mkF 373, mkF ((0x13001004048044 : ℚ) / 2 ^ 48), mkF ((10 : ℚ) ^ 308)⟩

/-- Single-precision build: `cutoff1 = 53.0F`,
`cutoff2 = 0x1.0A2B24P+3F` (exactly `0x10A2B24 / 2^21`), `sqrt` rescale
cutoff `1e38`. -/
def singleCfg : Config :=
  ⟨mkF 53, mkF ((0x10A2B24 : ℚ) / 2 ^ 21), mkF ((10 : ℚ) ^ 38)⟩

/-- Complex exponential `cmath_cexp` (cmath.c lines 169-196). -/
def cmath_cexp (L : ScalarLib) (c : CC) : CC :=
  let x := c.1
  let y := c.2
  if isnanF x then
    if eqF y (mkF 0) then (nanF, y) else (nanF, nanF)
  else
    if eqF x posInfF then
      if isnanF y || isinfF y then (posInfF, nanF)
      else if eqF y (mkF 0) then c
      else
        let r := L.exp x
        (mulF r (L.cos y), mulF r (L.sin y))
    else if eqF x negInfF then
      if isnanF y || isinfF y then (mkF 0, copysignF (mkF 0) y)
      else
        let r := L.exp x
        (mulF r (L.cos y), mulF r (L.sin y))
    else
      let r := L.exp x
      (mulF r (L.cos y), mulF r (L.sin y))

/-- Complex natural logarithm `cmath_clog` (lines 198-206):
`(log(hypot(x,y)), atan2(y,x))`. -/
def cmath_clog (L : ScalarLib) (c : CC) : CC :=
  let x := c.1
  let y := c.2
  let r := L.hypot x y
  let t := L.atan2 y x
  (L.log r, t)

/-- Complex square root `cmath_csqrt` (lines 208-261). -/
def cmath_csqrt (L : ScalarLib) (cfg : Config) (c : CC) : CC :=
  let x := c.1
  let y := c.2
  if eqF y (mkF 0) then
    if isnanF x then (x, x)
    else if signbitF x then (mkF 0, copysignF (L.sqrt (negF x)) y)
    else (L.sqrt x, y)
  else
    if isinfF x && isinfF y then (posInfF, y)
    else if isinfF x && isnanF y then
      if signbitF x then (y, posInfF) else c
    else if isinfF x then
      if signbitF x then (mkF 0, copysignF posInfF y)
      else (posInfF, copysignF (mkF 0) y)
    else if isinfF y then (posInfF, y)
    else
      let scale := gtF (absF x) cfg.sqrtCutoff || gtF (absF y) cfg.sqrtCutoff
      let x1 := if scale then divF x (mkF 4) else x
      let y1 := if scale then divF y (mkF 4) else y
      let r0 := L.hypot x1 y1
      let t0 := L.atan2 y1 x1
      let r1 := L.sqrt r0
      let t1 := divF t0 (mkF 2)
      let r2 := if scale then mulF r1 (mkF 2) else r1
      (mulF r2 (L.cos t1), mulF r2 (L.sin t1))

/-- Complex sine `cmath_csin` (lines 263-273). -/
def cmath_csin (L : ScalarLib) (c : CC) : CC :=
  let x := c.1
  let y := c.2
  let cx := L.cos x
  let sx := L.sin x
  let cy := L.cosh y
  let sy := L.sinh y
  (mulF sx cy, mulF cx sy)

/-- Complex cosine `cmath_ccos` (lines 275-285); the imaginary part is
`-sx*sy`, i.e. `(-sx)*sy`. -/
def cmath_ccos (L : ScalarLib) (c : CC) : CC :=
  let x := c.1
  let y := c.2
  let cx := L.cos x
  let sx := L.sin x
  let cy := L.cosh y
  let sy := L.sinh y
  (mulF cx cy, mulF (negF sx) sy)

/-- Complex tangent `cmath_ctan` (lines 287-318), with the two saturation
cutoffs from the build configuration. -/
def cmath_ctan (L : ScalarLib) (cfg : Config) (c : CC) : CC :=
  let x := c.1
  let y := c.2
  let cx := L.cos x
  let sx := L.sin x
  if gtF (absF y) cfg.cutoff1 then
    (copysignF (mkF 0) (mulF sx cx), copysignF (mkF 1) y)
  else if gtF (absF y) cfg.cutoff2 then
    let cy := L.cosh y
    (divF (divF (mulF sx cx) cy) cy, copysignF (mkF 1) y)
  else
    let cy := L.cosh y
    let sy := L.sinh y
    let d := addF (mulF (mulF (mulF cx cx) cy) cy) (mulF (mulF (mulF sx sx) sy) sy)
    (divF (mulF sx cx) d, divF (mulF sy cy) d)

/-- Complex hyperbolic sine `cmath_csinh` (lines 320-330). -/
def cmath_csinh (L : ScalarLib) (c : CC) : CC :=
  let x := c.1
  let y := c.2
  let cx := L.cosh x
  let sx := L.sinh x
  let cy := L.cos y
  let sy := L.sin y
  (mulF sx cy, mulF cx sy)

/-- Complex hyperbolic cosine `cmath_ccosh` (lines 332-364), with its
special-value table. -/
def cmath_ccosh (L : ScalarLib) (c : CC) : CC :=
  let x := c.1
  let y := c.2
  if isnanF x then
    if isnanF y || isinfF y then (nanF, nanF)
    else (nanF, if eqF y (mkF 0) then y else nanF)
  else if isinfF x then
    if isnanF y || isinfF y then (posInfF, nanF)
    else if eqF y (mkF 0) then (posInfF, if signbitF x then negF y else y)
    else
      let cy := L.cos y
      let sy := L.sin y
      (mulF posInfF cy, mulF x sy)
  else
    if isnanF y || isinfF y then (nanF, if eqF x (mkF 0) then mkF 0 else nanF)
    else
      let cx := L.cosh x
      let sx := L.sinh x
      let cy := L.cos y
      let sy := L.sin y
      (mulF cx cy, mulF sx sy)

/-- Complex hyperbolic tangent `cmath_ctanh` (lines 366-397).  Note the
outer-cutoff branch returns imaginary part `0.0F` (a plain `+0`). -/
def cmath_ctanh (L : ScalarLib) (cfg : Config) (c : CC) : CC :=
  let x := c.1
  let y := c.2
  let cy := L.cos y
  let sy := L.sin y
  if gtF (absF x) cfg.cutoff1 then
    (copysignF (mkF 1) x, mkF 0)
  else if gtF (absF x) cfg.cutoff2 then
    let cx := L.cosh x
    (copysignF (mkF 1) x, divF (divF (mulF sy cy) cx) cx)
  else
    let cx := L.cosh x
    let sx := L.sinh x
    let d := addF (mulF (mulF (mulF cx cx) cy) cy) (mulF (mulF (mulF sx sx) sy) sy)
    (divF (mulF sx cx) d, divF (mulF sy cy) d)

/-- The literal `(mrb_float)0.69314718055994530942` (log 2) used by
`cmath_casinh` / `cmath_cacosh`, modelled as the exact decimal. -/
def ln2F : MF := mkF ((69314718055994530942 : ℚ) / 10 ^ 20)

/-- Large-argument cutoff `1e8F` of `cmath_casinh` / `cmath_cacosh`
(exactly representable in binary32). -/
def cutoff1e8 : MF := mkF 100000000

/-- Complex inverse hyperbolic sine `cmath_casinh` (lines 399-415). -/
def cmath_casinh (L : ScalarLib) (cfg : Config) (c : CC) : CC :=
  let x := c.1
  if gtF (absF x) cutoff1e8 || gtF (absF c.2) cutoff1e8 then
    if signbitF x then cnegC (caddR (cmath_clog L (cnegC c)) ln2F)
    else caddR (cmath_clog L c) ln2F
  else
    cmath_clog L (cadd c (cmath_csqrt L cfg (caddR (cmul c c) (mkF 1))))

/-- Complex inverse hyperbolic cosine `cmath_cacosh` (lines 417-429). -/
def cmath_cacosh (L : ScalarLib) (cfg : Config) (c : CC) : CC :=
  if gtF (absF c.1) cutoff1e8 || gtF (absF c.2) cutoff1e8 then
    caddR (cmath_clog L c) ln2F
  else
    cmath_clog L
      (cadd c (cmul (cmath_csqrt L cfg (caddR c (mkF 1)))
                    (cmath_csqrt L cfg (csubR c (mkF 1)))))

/-- Complex inverse hyperbolic tangent `cmath_catanh` (lines 431-435):
`0.5F*clog((1.0F + c)/(1.0F - c))`. -/
def cmath_catanh (L : ScalarLib) (c : CC) : CC :=
  rmulC (mkF (1 / 2)) (cmath_clog L (cdiv (raddC (mkF 1) c) (rsubC (mkF 1) c)))

/-- Complex arcsine `cmath_casin` (lines 437-448): `-i*asinh(i*c)` realised
as component sign swaps. -/
def cmath_casin (L : ScalarLib) (cfg : Config) (c : CC) : CC :=
  let x1 := c.1
  let y1 := c.2
  let c2 : CC := (negF y1, x1)
  let d2 := cmath_casinh L cfg c2
  let x2 := d2.1
  let y2 := d2.2
  (y2, negF x2)

/-- Complex arccosine `cmath_cacos` (lines 450-462): `-i*acosh(c)`, then
negated when the resulting real part has a negative sign bit. -/
def cmath_cacos (L : ScalarLib) (cfg : Config) (c : CC) : CC :=
  let d2 := cmath_cacosh L cfg c
  let x2 := d2.1
  let y2 := d2.2
  let d : CC := (y2, negF x2)
  if signbitF d.1 then cnegC d else d

/-- Complex arctangent `cmath_catan` (lines 464-475): `-i*atanh(i*c)`. -/
def cmath_catan (L : ScalarLib) (c : CC) : CC :=
  let x1 := c.1
  let y1 := c.2
  let c2 : CC := (negF y1, x1)
  let d2 := cmath_catanh L c2
  let x2 := d2.1
  let y2 := d2.2
  (y2, negF x2)

/-- An mruby value as seen by the dispatch boundary: integer, float, complex
pair, or anything else (`other` stands for every non-numeric value). -/
inductive MrbValue where
  | int : ℤ → MrbValue
  | flt : MF → MrbValue
  | cpx : MF → MF → MrbValue
  | other : MrbValue
deriving DecidableEq, Repr

/-- Result of one module function call: a real float, a complex pair, or the
type error raised by `cmath_get_complex`. -/
inductive MrbResult where
  | real : MF → MrbResult
  | complex : MF → MF → MrbResult
  | err : MrbResult
deriving DecidableEq, Repr

/-- C cast `(mrb_float)` of an `mrb_int` (exact here; the claims only concern
integers whose float conversion is exact). -/
def intToF (n : ℤ) : MF := mkF (n : ℚ)

/-- `cmath_get_complex` (lines 22-43): extracts `(real, imag)` and returns
the is-complex flag; `none` models the `E_TYPE_ERROR` raise. -/
def cmath_get_complex : MrbValue → Option (MF × MF × Bool)
  | MrbValue.int n => some (intToF n, mkF 0, false)
  | MrbValue.flt x => some (x, mkF 0, false)
  | MrbValue.cpx r i => some (r, i, true)
  | MrbValue.other => none

/-- Body of the `DEF_CMATH_METHOD(name)` macro (lines 155-167): dispatch on
the is-complex flag, complex core on the complex path, scalar libm call on
the real path. -/
def cmathMethod (ccore : CC → CC) (rfn : MF → MF) (z : MrbValue) : MrbResult :=
  match cmath_get_complex z with
  | none => MrbResult.err
  | some (re, im, isc) =>
    if isc then
      let w := ccore (re, im)
      MrbResult.complex w.1 w.2
    else MrbResult.real (rfn re)

/-- `math.h` constant `M_E` used as the default base of `cmath_log`
(never actually read: the `n == 1` checks skip every use of `base`). -/
def mE : MF := mkF ((27182818284590452354 : ℚ) / 10 ^ 19)

/-- `cmath_log` (lines 481-502): one- and two-argument natural logarithm;
`baseArg = some b` models `n == 2`.  On the GCC path the `CXDIVc` macro is
builtin complex division, modelled by `cdiv`. -/
def cmath_log (L : ScalarLib) (z : MrbValue) (baseArg : Option MF) : MrbResult :=
  match cmath_get_complex z with
  | none => MrbResult.err
  | some (re, im, isc) =>
    let base := match baseArg with | some b => b | none => mE
    if isc || ltF re (mkF 0) then
      let c := cmath_clog L (re, im)
      let c1 := match baseArg with
        | some _ => cdiv c (cmath_clog L (base, mkF 0))
        | none => c
      MrbResult.complex c1.1 c1.2
    else
      match baseArg with
      | none => MrbResult.real (L.log re)
      | some _ => MrbResult.real (divF (L.log re) (L.log base))

/-- `cmath_log10` (lines 504-515): complex path divides `clog(c)` by the
real scalar `log(10)` componentwise. -/
def cmath_log10 (L : ScalarLib) (z : MrbValue) : MrbResult :=
  match cmath_get_complex z with
  | none => MrbResult.err
  | some (re, im, isc) =>
    if isc || ltF re (mkF 0) then
      let c := CXDIVf (cmath_clog L (re, im)) (L.log (mkF 10))
      MrbResult.complex c.1 c.2
    else MrbResult.real (L.log10 re)

/-- `cmath_log2` (lines 517-528). -/
def cmath_log2 (L : ScalarLib) (z : MrbValue) : MrbResult :=
  match cmath_get_complex z with
  | none => MrbResult.err
  | some (re, im, isc) =>
    if isc || ltF re (mkF 0) then
      let c := CXDIVf (cmath_clog L (re, im)) (L.log (mkF 2))
      MrbResult.complex c.1 c.2
    else MrbResult.real (L.log2 re)

/-- `cmath_sqrt` (lines 530-541): routes a negative real operand to the
complex algorithm. -/
def cmath_sqrt (L : ScalarLib) (cfg : Config) (z : MrbValue) : MrbResult :=
  match cmath_get_complex z with
  | none => MrbResult.err
  | some (re, im, isc) =>
    if isc || ltF re (mkF 0) then
      let c := cmath_csqrt L cfg (re, im)
      MrbResult.complex c.1 c.2
    else MrbResult.real (L.sqrt re)

/-- Names of the module functions registered by the gem init
(lines 570-599). -/
inductive FuncName where
  | exp | sin | cos | tan | asin | acos | atan
  | sinh | cosh | tanh | asinh | acosh | atanh
  | log | log2 | log10 | sqrt
deriving DecidableEq, Repr

/-- Dispatch of each module function to its wrapper; `log` in its
one-argument form. -/
def dispatch (L : ScalarLib) (cfg : Config) : FuncName → MrbValue → MrbResult
  | FuncName.exp => cmathMethod (cmath_cexp L) L.exp
  | FuncName.sin => cmathMethod (cmath_csin L) L.sin
  | FuncName.cos => cmathMethod (cmath_ccos L) L.cos
  | FuncName.tan => cmathMethod (cmath_ctan L cfg) L.tan
  | FuncName.asin => cmathMethod (cmath_casin L cfg) L.asin
  | FuncName.acos => cmathMethod (cmath_cacos L cfg) L.acos
  | FuncName.atan => cmathMethod (cmath_catan L) L.atan
  | FuncName.sinh => cmathMethod (cmath_csinh L) L.sinh
  | FuncName.cosh => cmathMethod (cmath_ccosh L) L.cosh
  | FuncName.tanh => cmathMethod (cmath_ctanh L cfg) L.tanh
  | FuncName.asinh => cmathMethod (cmath_casinh L cfg) L.asinh
  | FuncName.acosh => cmathMethod (cmath_cacosh L cfg) L.acosh
  | FuncName.atanh => cmathMethod (cmath_catanh L) L.atanh
  | FuncName.log => fun z => cmath_log L z none
  | FuncName.log2 => cmath_log2 L
  | FuncName.log10 => cmath_log10 L
  | FuncName.sqrt => cmath_sqrt L cfg

/-- Is the result a complex pair? -/
def isComplexR : MrbResult → Bool
  | MrbResult.complex _ _ => true
  | _ => false

/-- Is the result a real scalar? -/
def isRealR : MrbResult → Bool
  | MrbResult.real _ => true
  | _ => false

/-- Is the result the type error? -/
def isErrR : MrbResult → Bool
  | MrbResult.err => true
  | _ => false

/-- Is the operand numeric (integer, float or complex)? -/
def numericB : MrbValue → Bool
  | MrbValue.other => false
  | _ => true

/-- Is the operand a complex value? -/
def isCpxV : MrbValue → Bool
  | MrbValue.cpx _ _ => true
  | _ => false

/-- The four functions that promote a negative real operand to the complex
path. -/
def logFam : FuncName → Bool
  | FuncName.log => true
  | FuncName.log2 => true
  | FuncName.log10 => true
  | FuncName.sqrt => true
  | _ => false

/-- Real component a numeric operand presents to the dispatch test. -/
def realComp : MrbValue → MF
  | MrbValue.int n => intToF n
  | MrbValue.flt x => x
  | MrbValue.cpx r _ => r
  | MrbValue.other => mkF 0

/-- Spec's rotation `rot(x, y) = (-y, x)` (claim C7). -/
def rotC (c : CC) : CC := (negF c.2, c.1)

/-- Spec's inverse rotation `rot-inverse(x, y) = (y, -x)` (claim C7). -/
def rotInvC (c : CC) : CC := (c.2, negF c.1)

/-- Component swap of a complex pair (claim C5). -/
def cswap (c : CC) : CC := (c.2, c.1)

/-- Modelled from the claim (C8): the two-argument `log(z, base)` described
as computing `log(z)` and dividing by `log(base)` with complex/complex
division, for every numeric operand regardless of the path `z` takes. -/
def logBaseClaim (L : ScalarLib) (z : MrbValue) (base : MF) : MrbResult :=
  match cmath_get_complex z with
  | none => MrbResult.err
  | some (re, im, _) =>
    let c := cdiv (cmath_clog L (re, im)) (cmath_clog L (base, mkF 0))
    MrbResult.complex c.1 c.2

/-- Square-root stand-in on rational magnitudes: exact on perfect squares
(all any witness evaluates). -/
def ratSqrt (q : ℚ) : ℚ := (Nat.sqrt q.num.toNat : ℚ) / (Nat.sqrt q.den : ℚ)

/-- Executable stand-in for the external C math library, used only to
evaluate concrete instances.  Its values are irrelevant to the theorems
except where a witness or counterexample states the behaviour it relies on
(`sqrt 4 = 2`; `sin` negative and `cos` positive at `-1`, as the true
`sin`/`cos` are). -/
def demoLib : ScalarLib where
  exp := fun x => x
  log := fun x => x
  log2 := fun x => x
  log10 := fun x => x
  sqrt := fun x => ⟨x.sg, match x.mg with | Mag.fin m => Mag.fin (ratSqrt m) | m => m⟩
  sin := fun x => x
  cos := absF
  tan := fun x => x
  asin := fun x => x
  acos := fun x => x
  atan := fun x => x
  sinh := fun x => x
  cosh := absF
  tanh := fun x => x
  asinh := fun x => x
  acosh := fun x => x
  atanh := fun x => x
  hypot := fun x y => addF (absF x) (absF y)
  atan2 := fun y _ => y

/-- Claim C1: `Divide(a, b)` is claimed to compute the denominator from the
dominant component of `b` (`den = Im(b)*(1 + r*r)` when `|Re(b)| <= |Im(b)|`,
symmetrically otherwise).  The source's `CXDIVc` instead computes `den` from
the components of `a` (lines 77 and 83 of `cmath.c`), so at the finite,
nonzero-`b` input `a = 2 + 0i`, `b = 1 + 0i` it returns `(1, 0)` where the
claimed algorithm — and true complex division — gives `(2, 0)`. -/
theorem c1_cxdivc_denominator_slip :
    CXDIVc (mkF 2, mkF 0) (mkF 1, mkF 0) = (mkF 1, mkF 0) ∧
    divideSpec (mkF 2, mkF 0) (mkF 1, mkF 0) = (mkF 2, mkF 0) ∧
    CXDIVc (mkF 2, mkF 0) (mkF 1, mkF 0) ≠
      divideSpec (mkF 2, mkF 0) (mkF 1, mkF 0) := by
  refine ⟨by with_unfolding_all decide, by with_unfolding_all decide,
    by with_unfolding_all decide⟩

/-- Canonical form of the zero literal. -/
theorem mkF_zero : mkF 0 = ⟨false, Mag.fin 0⟩ := by with_unfolding_all rfl

/-- Canonical form of the one literal. -/
theorem mkF_one : mkF 1 = ⟨false, Mag.fin 1⟩ := by with_unfolding_all rfl

/-- Value of an embedded rational literal. -/
theorem valF_mkF (q : ℚ) : valF (mkF q) = some (XV.ratv q) := by
  unfold mkF valF
  by_cases h : q < 0
  · rw [decide_eq_true h]
    simp [abs_of_neg h]
  · rw [decide_eq_false h]
    simp [abs_of_nonneg (le_of_not_lt h)]

/-- C `<` agrees with the rational order on embedded literals. -/
theorem ltF_mkF (a b : ℚ) : ltF (mkF a) (mkF b) = decide (a < b) := by
  unfold ltF
  rw [valF_mkF, valF_mkF]
  rfl

/-- C `==` against `+INFINITY` holds only for `+INFINITY` itself. -/
theorem eqF_posInf_iff (x : MF) : eqF x posInfF = true ↔ x = posInfF := by
  rcases x with ⟨sg, mg⟩
  cases sg <;> cases mg <;> simp [eqF, valF, posInfF]

/-- C `==` against `-INFINITY` holds only for `-INFINITY` itself. -/
theorem eqF_negInf_iff (x : MF) : eqF x negInfF = true ↔ x = negInfF := by
  rcases x with ⟨sg, mg⟩
  cases sg <;> cases mg <;> simp [eqF, valF, negInfF]

/-- C `== 0.0F` holds exactly for the two signed zeros. -/
theorem eqF_zero_iff (y : MF) : eqF y (mkF 0) = true ↔ ∃ s, y = ⟨s, Mag.fin 0⟩ := by
  rcases y with ⟨sg, mg⟩
  rw [mkF_zero]
  cases sg <;> cases mg <;> simp [eqF, valF]

/-- A value equal to zero is neither NaN nor infinite. -/
theorem eqF_zero_not_special (y : MF) (h : eqF y (mkF 0) = true) :
    isnanF y = false ∧ isinfF y = false := by
  obtain ⟨s, rfl⟩ := (eqF_zero_iff y).1 h
  exact ⟨rfl, rfl⟩

/-- Guard fact: `+INFINITY` is not NaN. -/
theorem isnanF_posInf : isnanF posInfF = false := rfl

/-- Guard fact: `-INFINITY` is not NaN. -/
theorem isnanF_negInf : isnanF negInfF = false := rfl

/-- Guard fact: `+INFINITY == +INFINITY`. -/
theorem eqF_posInf_self : eqF posInfF posInfF = true := rfl

/-- Guard fact: `-INFINITY == +INFINITY` is false. -/
theorem eqF_negInf_posInf : eqF negInfF posInfF = false := rfl

/-- Guard fact: `-INFINITY == -INFINITY`. -/
theorem eqF_negInf_self : eqF negInfF negInfF = true := rfl

/-- Claim C2: the special-value table of `exp(x + iy)` — NaN `x` gives
`(NaN, y)` when `y = 0` and `(NaN, NaN)` otherwise; `x = +Infinity` gives
`(+Infinity, NaN)` for NaN/infinite `y` and `z` unchanged for `y = 0`;
`x = -Infinity` with NaN/infinite `y` gives `(+0, copysign(0, y))`; every
remaining case is `(exp(x)*cos(y), exp(x)*sin(y))`; in particular
`exp(Inf + 0i) = (Inf, 0)`, `exp(NaN + 0i) = (NaN, 0)`,
`exp(-Inf + Inf*i) = (0, +0)`. -/
theorem c2_cexp_special_values (L : ScalarLib) (x y : MF) :
    (isnanF x = true → eqF y (mkF 0) = true → cmath_cexp L (x, y) = (nanF, y)) ∧
    (isnanF x = true → eqF y (mkF 0) = false → cmath_cexp L (x, y) = (nanF, nanF)) ∧
    (eqF x posInfF = true → (isnanF y || isinfF y) = true →
      cmath_cexp L (x, y) = (posInfF, nanF)) ∧
    (eqF x posInfF = true → eqF y (mkF 0) = true → cmath_cexp L (x, y) = (x, y)) ∧
    (eqF x negInfF = true → (isnanF y || isinfF y) = true →
      cmath_cexp L (x, y) = (mkF 0, copysignF (mkF 0) y)) ∧
    (isnanF x = false →
      (eqF x posInfF = true → (isnanF y || isinfF y) = false ∧ eqF y (mkF 0) = false) →
      (eqF x negInfF = true → (isnanF y || isinfF y) = false) →
      cmath_cexp L (x, y) = (mulF (L.exp x) (L.cos y), mulF (L.exp x) (L.sin y))) ∧
    cmath_cexp L (posInfF, mkF 0) = (posInfF, mkF 0) ∧
    cmath_cexp L (nanF, mkF 0) = (nanF, mkF 0) ∧
    cmath_cexp L (negInfF, posInfF) = (mkF 0, mkF 0) := by
  refine ⟨?_, ?_, ?_, ?_, ?_, ?_, ?_, ?_, ?_⟩
  · intro h1 h2
    simp [cmath_cexp, h1, h2]
  · intro h1 h2
    simp [cmath_cexp, h1, h2]
  · intro h1 h2
    obtain rfl := (eqF_posInf_iff x).1 h1
    simp [cmath_cexp, h2, isnanF_posInf, eqF_posInf_self]
  · intro h1 h2
    obtain rfl := (eqF_posInf_iff x).1 h1
    obtain ⟨hn, hi⟩ := eqF_zero_not_special y h2
    simp [cmath_cexp, h2, hn, hi, isnanF_posInf, eqF_posInf_self]
  · intro h1 h2
    obtain rfl := (eqF_negInf_iff x).1 h1
    simp [cmath_cexp, h2, isnanF_negInf, eqF_negInf_posInf, eqF_negInf_self]
  · intro h1 h2 h3
    by_cases hp : eqF x posInfF = true
    · obtain ⟨hs, hz⟩ := h2 hp
      simp [cmath_cexp, h1, hp, hs, hz]
    · by_cases hnn : eqF x negInfF = true
      · have hs := h3 hnn
        simp [cmath_cexp, h1, hp, hnn, hs]
      · simp [cmath_cexp, h1, hp, hnn]
  · simp [cmath_cexp, isnanF, isinfF, posInfF, eqF, valF, mkF_zero]
  · simp [cmath_cexp, isnanF, nanF, eqF, valF, mkF_zero]
  · simp [cmath_cexp, isnanF, isinfF, negInfF, posInfF, eqF, valF, mkF_zero, copysignF]

/-- Witness for C2: evaluating the NaN row of the table at `x = NaN`,
`y = 5`. -/
theorem c2_cexp_special_values_witness :
    isnanF nanF = true ∧ eqF (mkF 5) (mkF 0) = false ∧
    cmath_cexp demoLib (nanF, mkF 5) = (nanF, nanF) :=
  ⟨by with_unfolding_all decide, by with_unfolding_all decide,
   (c2_cexp_special_values demoLib nanF (mkF 5)).2.1
     (by with_unfolding_all decide) (by with_unfolding_all decide)⟩

/-- Claim C3: `sqrt` on the real axis (`y = 0`, either sign of zero) —
NaN `x` gives `(x, x)`; sign-bit-set `x` (including `-0`) gives
`(0, copysign(sqrt(-x), y))`; otherwise `(sqrt(x), y)`, preserving the sign
of the zero imaginary part; in particular `sqrt(-4 + 0i) = (0, 2)` and
`sqrt(-4 - 0i) = (0, -2)`. -/
theorem c3_csqrt_real_axis (L : ScalarLib) (cfg : Config) (x y : MF) :
    (eqF y (mkF 0) = true → isnanF x = true →
      cmath_csqrt L cfg (x, y) = (x, x)) ∧
    (eqF y (mkF 0) = true → isnanF x = false → signbitF x = true →
      cmath_csqrt L cfg (x, y) = (mkF 0, copysignF (L.sqrt (negF x)) y)) ∧
    (eqF y (mkF 0) = true → isnanF x = false → signbitF x = false →
      cmath_csqrt L cfg (x, y) = (L.sqrt x, y)) ∧
    (L.sqrt (mkF 4) = mkF 2 →
      cmath_csqrt L cfg (mkF (-4), mkF 0) = (mkF 0, mkF 2) ∧
      cmath_csqrt L cfg (mkF (-4), negF (mkF 0)) = (mkF 0, negF (mkF 2))) := by
  refine ⟨?_, ?_, ?_, ?_⟩
  · intro hy hx
    simp [cmath_csqrt, hy, hx]
  · intro hy hx hs
    simp [cmath_csqrt, hy, hx, hs]
  · intro hy hx hs
    simp [cmath_csqrt, hy, hx, hs]
  · intro hs
    have h4 : negF (mkF (-4)) = mkF 4 := by with_unfolding_all rfl
    have hz1 : eqF (mkF 0) (mkF 0) = true := by with_unfolding_all rfl
    have hz2 : eqF (negF (mkF 0)) (mkF 0) = true := by with_unfolding_all rfl
    have hn : isnanF (mkF (-4)) = false := by with_unfolding_all rfl
    have hsg : signbitF (mkF (-4)) = true := by with_unfolding_all rfl
    constructor
    · simp [cmath_csqrt, hz1, hn, hsg, h4, hs]
      with_unfolding_all rfl
    · simp [cmath_csqrt, hz2, hn, hsg, h4, hs]
      with_unfolding_all rfl

/-- Witness for C3: the branch-cut instances with the executable stand-in
library (whose `sqrt` is exact on 4). -/
theorem c3_csqrt_real_axis_witness :
    demoLib.sqrt (mkF 4) = mkF 2 ∧
    cmath_csqrt demoLib doubleCfg (mkF (-4), mkF 0) = (mkF 0, mkF 2) ∧
    cmath_csqrt demoLib doubleCfg (mkF (-4), negF (mkF 0)) = (mkF 0, negF (mkF 2)) :=
  ⟨by with_unfolding_all decide,
   (c3_csqrt_real_axis demoLib doubleCfg (mkF (-4)) (mkF 0)).2.2.2
     (by with_unfolding_all decide)⟩

/-- Claim C6: above the outer cutoff on `|y|`, `tan(x + iy)` is exactly
`(copysign(0, sin(x)*cos(x)), copysign(1, y))`; the outer cutoff is 373 in
the double-precision build and 53 in the single-precision build. -/
theorem c6_ctan_outer_cutoff (L : ScalarLib) (cfg : Config) (x y : MF) :
    (gtF (absF y) cfg.cutoff1 = true →
      cmath_ctan L cfg (x, y) =
        (copysignF (mkF 0) (mulF (L.sin x) (L.cos x)), copysignF (mkF 1) y)) ∧
    doubleCfg.cutoff1 = mkF 373 ∧ singleCfg.cutoff1 = mkF 53 := by
  refine ⟨?_, rfl, rfl⟩
  intro h
  simp [cmath_ctan, h]

/-- Witness for C6: `y = 374` clears the double-precision cutoff. -/
theorem c6_ctan_outer_cutoff_witness :
    gtF (absF (mkF 374)) doubleCfg.cutoff1 = true ∧
    cmath_ctan demoLib doubleCfg (mkF 1, mkF 374) =
      (copysignF (mkF 0) (mulF (demoLib.sin (mkF 1)) (demoLib.cos (mkF 1))),
       copysignF (mkF 1) (mkF 374)) :=
  ⟨by with_unfolding_all decide,
   (c6_ctan_outer_cutoff demoLib doubleCfg (mkF 1) (mkF 374)).1
     (by with_unfolding_all decide)⟩

/-- Claim C7: `asin` and `atan` are the rotation compositions
`rot-inverse ∘ (asinh / atanh) ∘ rot`, and `acos` is `rot-inverse ∘ acosh`
negated exactly when the real part of the rotated result has a negative
sign bit. -/
theorem c7_inverse_circular_rotation (L : ScalarLib) (cfg : Config) (c : CC) :
    cmath_casin L cfg c = rotInvC (cmath_casinh L cfg (rotC c)) ∧
    cmath_catan L c = rotInvC (cmath_catanh L (rotC c)) ∧
    cmath_cacos L cfg c =
      (if signbitF (rotInvC (cmath_cacosh L cfg c)).1 then
        cnegC (rotInvC (cmath_cacosh L cfg c))
       else rotInvC (cmath_cacosh L cfg c)) :=
  ⟨rfl, rfl, rfl⟩

/-- Sign-and-magnitude reshuffle of a fourfold product, used to align the
denominators of `tan` and `tanh` (exact-model multiplication is
associative-commutative even through NaN and infinity cases). -/
theorem mulMag_shuffle (a b : Mag) :
    mulMag (mulMag (mulMag a a) b) b = mulMag (mulMag (mulMag b b) a) a := by
  cases a <;> cases b <;>
    simp only [mulMag] <;>
    first
      | rfl
      | (exact congrArg Mag.fin (by ring))
      | (split_ifs <;> simp_all [mulMag, mul_self_eq_zero, mul_eq_zero])

/-- Fourfold product reshuffle on modelled floats. -/
theorem mulF_shuffle (x y : MF) :
    mulF (mulF (mulF x x) y) y = mulF (mulF (mulF y y) x) x := by
  have hs : ∀ (a b : Bool), xor (xor (xor a a) b) b = xor (xor (xor b b) a) a := by
    decide
  have hm := mulMag_shuffle x.mg y.mg
  simp [mulF, hs x.sg y.sg, hm]

/-- Counterexample to claim C5 as stated: at `x = 374`, `y = -1` (double
build, stand-in library with `sin(-1) < 0 < cos(-1)`, the signs the true
`sin`/`cos` have there), `tanh` returns imaginary part `+0` while the
component swap of `tan(y + ix)` carries `copysign(0, sin(y)cos(y)) = -0`. -/
theorem c5_tanh_tan_symmetry_counterexample :
    cmath_ctanh demoLib doubleCfg (mkF 374, mkF (-1)) ≠
      cswap (cmath_ctan demoLib doubleCfg (mkF (-1), mkF 374)) := by
  with_unfolding_all decide

/-- Claim C5, amended: `tanh(x + iy)` equals the component swap of
`tan(y + ix)` whenever `|x|` does not exceed the outer cutoff; above it the
real parts still swap-agree but `tanh`'s imaginary part is the literal `+0`
(not `copysign(0, sin(y)cos(y))`). -/
theorem c5_tanh_tan_symmetry_amended (L : ScalarLib) (cfg : Config) (x y : MF) :
    (gtF (absF x) cfg.cutoff1 = false →
      cmath_ctanh L cfg (x, y) = cswap (cmath_ctan L cfg (y, x))) ∧
    (gtF (absF x) cfg.cutoff1 = true →
      cmath_ctanh L cfg (x, y) = ((cmath_ctan L cfg (y, x)).2, mkF 0)) := by
  constructor
  · intro h
    by_cases h2 : gtF (absF x) cfg.cutoff2 = true
    · simp [cmath_ctanh, cmath_ctan, cswap, h, h2]
    · simp [cmath_ctanh, cmath_ctan, cswap, h, h2, mulF_shuffle]
  · intro h
    simp [cmath_ctanh, cmath_ctan, h]

/-- Witness for the amended C5: one instance below and one above the outer
cutoff. -/
theorem c5_tanh_tan_symmetry_amended_witness :
    (gtF (absF (mkF 1)) doubleCfg.cutoff1 = false ∧
      cmath_ctanh demoLib doubleCfg (mkF 1, mkF 2) =
        cswap (cmath_ctan demoLib doubleCfg (mkF 2, mkF 1))) ∧
    (gtF (absF (mkF 374)) doubleCfg.cutoff1 = true ∧
      cmath_ctanh demoLib doubleCfg (mkF 374, mkF 2) =
        ((cmath_ctan demoLib doubleCfg (mkF 2, mkF 374)).2, mkF 0)) :=
  ⟨⟨by with_unfolding_all decide,
    (c5_tanh_tan_symmetry_amended demoLib doubleCfg (mkF 1) (mkF 2)).1
      (by with_unfolding_all decide)⟩,
   ⟨by with_unfolding_all decide,
    (c5_tanh_tan_symmetry_amended demoLib doubleCfg (mkF 374) (mkF 2)).2
      (by with_unfolding_all decide)⟩⟩

/-- Result-kind projections on each constructor. -/
@[simp] theorem isComplexR_real (x : MF) : isComplexR (MrbResult.real x) = false := rfl

/-- Result-kind projections on each constructor. -/
@[simp] theorem isComplexR_complex (a b : MF) :
    isComplexR (MrbResult.complex a b) = true := rfl

/-- Result-kind projections on each constructor. -/
@[simp] theorem isComplexR_err : isComplexR MrbResult.err = false := rfl

/-- Result-kind projections on each constructor. -/
@[simp] theorem isRealR_real (x : MF) : isRealR (MrbResult.real x) = true := rfl

/-- Result-kind projections on each constructor. -/
@[simp] theorem isRealR_complex (a b : MF) :
    isRealR (MrbResult.complex a b) = false := rfl

/-- Result-kind projections on each constructor. -/
@[simp] theorem isRealR_err : isRealR MrbResult.err = false := rfl

/-- Result-kind projections on each constructor. -/
@[simp] theorem isErrR_real (x : MF) : isErrR (MrbResult.real x) = false := rfl

/-- Result-kind projections on each constructor. -/
@[simp] theorem isErrR_complex (a b : MF) :
    isErrR (MrbResult.complex a b) = false := rfl

/-- Result-kind projections on each constructor. -/
@[simp] theorem isErrR_err : isErrR MrbResult.err = true := rfl

/-- A dispatch branch that chooses between a complex and a real result is
complex exactly when its guard holds. -/
theorem isComplexR_ite (b : Bool) (c1 c2 x : MF) :
    isComplexR (if b = true then MrbResult.complex c1 c2 else MrbResult.real x) = b := by
  cases b <;> simp

/-- Such a branch never errors. -/
theorem isErrR_ite (b : Bool) (c1 c2 x : MF) :
    isErrR (if b = true then MrbResult.complex c1 c2 else MrbResult.real x) = false := by
  cases b <;> simp

/-- Such a branch is real exactly when its guard fails. -/
theorem isRealR_ite (b : Bool) (c1 c2 x : MF) :
    isRealR (if b = true then MrbResult.complex c1 c2 else MrbResult.real x) = !b := by
  cases b <;> simp

/-- Claim C4: the promotion rule — a numeric operand produces a Complex
result exactly when it is itself Complex, or the function is one of
`log`/`log10`/`log2`/`sqrt` and the operand's real value is strictly
negative (so NaN and `-0` take the real path, since C `<` is false there). -/
theorem c4_promotion_rule (L : ScalarLib) (cfg : Config) (f : FuncName) (z : MrbValue) :
    numericB z = true →
    (isComplexR (dispatch L cfg f z) = true ↔
      (isCpxV z = true ∨ (logFam f = true ∧ ltF (realComp z) (mkF 0) = true))) := by
  intro hz
  cases z with
  | other => simp [numericB] at hz
  | int n =>
      cases f <;>
        simp [dispatch, cmathMethod, cmath_get_complex, cmath_log, cmath_log2,
          cmath_log10, cmath_sqrt, isCpxV, logFam, realComp, isComplexR_ite]
  | flt x =>
      cases f <;>
        simp [dispatch, cmathMethod, cmath_get_complex, cmath_log, cmath_log2,
          cmath_log10, cmath_sqrt, isCpxV, logFam, realComp, isComplexR_ite]
  | cpx r i =>
      cases f <;>
        simp [dispatch, cmathMethod, cmath_get_complex, cmath_log, cmath_log2,
          cmath_log10, cmath_sqrt, isCpxV, logFam, realComp, isComplexR_ite]

/-- Witness for C4: `sqrt` of the real operand `-4` promotes to Complex. -/
theorem c4_promotion_rule_witness :
    numericB (MrbValue.flt (mkF (-4))) = true ∧
    (isComplexR (dispatch demoLib doubleCfg FuncName.sqrt (MrbValue.flt (mkF (-4)))) = true ↔
      (isCpxV (MrbValue.flt (mkF (-4))) = true ∨
        (logFam FuncName.sqrt = true ∧
          ltF (realComp (MrbValue.flt (mkF (-4)))) (mkF 0) = true))) :=
  ⟨by with_unfolding_all decide,
   c4_promotion_rule demoLib doubleCfg FuncName.sqrt (MrbValue.flt (mkF (-4)))
     (by with_unfolding_all decide)⟩

/-- Claim C9: a module function errors exactly on non-numeric operands (for
the one- and the two-argument form alike); on numeric operands the embedded
cores are total functions, so a result is always produced. -/
theorem c9_error_iff_nonnumeric (L : ScalarLib) (cfg : Config) (f : FuncName)
    (z : MrbValue) (b : MF) :
    (isErrR (dispatch L cfg f z) = true ↔ numericB z = false) ∧
    (isErrR (cmath_log L z (some b)) = true ↔ numericB z = false) := by
  constructor
  · cases z <;> cases f <;>
      simp [dispatch, cmathMethod, cmath_get_complex, cmath_log, cmath_log2,
        cmath_log10, cmath_sqrt, numericB, isErrR_ite]
  · cases z <;>
      simp [cmath_log, cmath_get_complex, numericB, isErrR_ite]

/-- Claim C10: an integer operand is converted to the float of its value
with zero imaginary part and the real (non-complex) flag, so every function
treats it exactly like the corresponding float: no error, a Complex result
exactly for `log`/`log2`/`log10`/`sqrt` of a negative integer, and a Real
result otherwise. -/
theorem c10_integer_operands (L : ScalarLib) (cfg : Config) (f : FuncName) (n : ℤ) :
    cmath_get_complex (MrbValue.int n) = some (intToF n, mkF 0, false) ∧
    dispatch L cfg f (MrbValue.int n) = dispatch L cfg f (MrbValue.flt (intToF n)) ∧
    isErrR (dispatch L cfg f (MrbValue.int n)) = false ∧
    (isComplexR (dispatch L cfg f (MrbValue.int n)) = true ↔
      (logFam f = true ∧ n < 0)) ∧
    (isRealR (dispatch L cfg f (MrbValue.int n)) = true ↔
      ¬(logFam f = true ∧ n < 0)) := by
  have hlt : ltF (intToF n) (mkF 0) = true ↔ n < 0 := by
    rw [intToF, ltF_mkF]
    simp
  refine ⟨rfl, ?_, ?_, ?_, ?_⟩
  · cases f <;> rfl
  · cases f <;>
      simp [dispatch, cmathMethod, cmath_get_complex, cmath_log, cmath_log2,
        cmath_log10, cmath_sqrt, isErrR_ite]
  · have key : isComplexR (dispatch L cfg f (MrbValue.int n)) = true ↔
        (logFam f = true ∧ ltF (intToF n) (mkF 0) = true) := by
      cases f <;>
        simp [dispatch, cmathMethod, cmath_get_complex, cmath_log, cmath_log2,
          cmath_log10, cmath_sqrt, logFam, isComplexR_ite]
    exact key.trans (and_congr_right fun _ => hlt)
  · have key : isRealR (dispatch L cfg f (MrbValue.int n)) = true ↔
        ¬(logFam f = true ∧ ltF (intToF n) (mkF 0) = true) := by
      cases f <;>
        simp [dispatch, cmathMethod, cmath_get_complex, cmath_log, cmath_log2,
          cmath_log10, cmath_sqrt, logFam, isRealR_ite]
    exact key.trans (not_congr (and_congr_right fun _ => hlt))

/-- Counterexample to claim C8 as stated: for the numeric operand `z = 100`
(a non-negative real) with supplied base `10`, the code divides with the
real scalar division `log(real)/log(base)` and returns a Real, not the
complex/complex division of `log(z)` by `log(base)` the claim describes for
every numeric operand. -/
theorem c8_log_base_counterexample :
    cmath_log demoLib (MrbValue.flt (mkF 100)) (some (mkF 10)) ≠
      logBaseClaim demoLib (MrbValue.flt (mkF 100)) (mkF 10) := by
  with_unfolding_all decide

/-- Claim C8, amended: with a base supplied, the complex path (complex
operand or negative real) divides `log(z)` by `log(base + 0i)` with
complex/complex division — the base embedded as a complex value whatever it
is — while the real path divides the scalar logarithms; with the base
omitted no division happens at all and the result is the one-argument
`log(z)`. -/
theorem c8_log_base_amended (L : ScalarLib) (z : MrbValue) (re im : MF)
    (isc : Bool) (b : MF) :
    cmath_get_complex z = some (re, im, isc) →
    (cmath_log L z (some b) =
      if (isc || ltF re (mkF 0)) = true then
        MrbResult.complex
          (cdiv (cmath_clog L (re, im)) (cmath_clog L (b, mkF 0))).1
          (cdiv (cmath_clog L (re, im)) (cmath_clog L (b, mkF 0))).2
      else MrbResult.real (divF (L.log re) (L.log b))) ∧
    (cmath_log L z none =
      if (isc || ltF re (mkF 0)) = true then
        MrbResult.complex (cmath_clog L (re, im)).1 (cmath_clog L (re, im)).2
      else MrbResult.real (L.log re)) := by
  intro h
  constructor <;> simp [cmath_log, h]

/-- Witness for the amended C8: a complex operand with base 10. -/
theorem c8_log_base_amended_witness :
    cmath_get_complex (MrbValue.cpx (mkF 3) (mkF 4)) = some (mkF 3, mkF 4, true) ∧
    cmath_log demoLib (MrbValue.cpx (mkF 3) (mkF 4)) (some (mkF 10)) =
      (if (true || ltF (mkF 3) (mkF 0)) = true then
        MrbResult.complex
          (cdiv (cmath_clog demoLib (mkF 3, mkF 4)) (cmath_clog demoLib (mkF 10, mkF 0))).1
          (cdiv (cmath_clog demoLib (mkF 3, mkF 4)) (cmath_clog demoLib (mkF 10, mkF 0))).2
      else MrbResult.real (divF (demoLib.log (mkF 3)) (demoLib.log (mkF 10)))) :=
  ⟨rfl,
   (c8_log_base_amended demoLib (MrbValue.cpx (mkF 3) (mkF 4)) (mkF 3) (mkF 4)
     true (mkF 10) rfl).1⟩
